import Mathlib

/-!
Verification of the OCR service in `src/main.py` (the live, uncommented code
at the bottom of the file: `verify_token`, `process_pdf_ocrmypdf`,
`process_pdf_tesseract`, `process_docx`, `process_image_ocrmypdf`,
`process_image_tesseract`, `get_file_text_ocrmypdf`, `get_file_text_tesseract`,
`ocr_endpoint`, `ocr_tesseract_only`).

Strings are embedded as `List Char`; file bytes as `List Nat`; the external
collaborators (pdfplumber, ocrmypdf, PyMuPDF/fitz, pytesseract, python-docx,
PIL, jwt.decode) are oracles gathered in an `Env` record, each returning
`Except` to model the Python calls raising. Exceptions are `Except PyError`;
FastAPI turns an uncaught `HTTPException(s, d)` into an error response with
status `s`, embedded by `EndpointResult`.
-/

/-- Python strings, embedded as lists of characters. -/
abbrev Str := List Char

/-- Raw uploaded file bytes (`file.file.read()`), abstract. -/
abbrev Bytes := List Nat

/-- An in-memory image handle (PIL image / fitz pixmap), abstract. -/
abbrev Img := Nat

/-- Shorthand turning a Lean string literal into the `List Char` embedding. -/
def sl (s : String) : Str := s.data

/-- Python whitespace characters (ASCII range): the characters `str.split()`
and `str.strip()` treat as separators. -/
def wsChar (c : Char) : Bool :=
  c == ' ' || c == '\t' || c == '\n' || c == '\r' ||
    c == Char.ofNat 11 || c == Char.ofNat 12

/-- Python `str.strip()`: remove leading and trailing whitespace. -/
def pyStrip (s : Str) : Str :=
  ((s.dropWhile wsChar).reverse.dropWhile wsChar).reverse

/-- The worker of `pySplit`: walk the string, keeping the current word in
`acc` (reversed); whitespace flushes the word, end of input flushes the
last word. -/
def pySplitAux : Str → Str → List Str
  | [], acc => if acc.isEmpty then [] else [acc.reverse]
  | c :: cs, acc =>
    if wsChar c then
      if acc.isEmpty then pySplitAux cs [] else acc.reverse :: pySplitAux cs []
    else pySplitAux cs (c :: acc)

/-- Python `str.split()` with no argument: split on runs of whitespace,
discarding empty fragments. -/
def pySplit (s : Str) : List Str := pySplitAux s []

/-- Python `" ".join(parts)`. -/
def joinSpace : List Str → Str
  | [] => []
  | [t] => t
  | t :: u :: ts => t ++ ' ' :: joinSpace (u :: ts)

/-- Python `s.replace('\n', ' ')` (single-character pattern, so a map). -/
def replaceNl (s : Str) : Str :=
  s.map (fun c => if c == '\n' then ' ' else c)

/-- The endpoint's final cleaning step:
`' '.join(extracted_text.replace('\n', ' ').split())`. -/
def cleanText (s : Str) : Str :=
  joinSpace (pySplit (replaceNl s))

/-- Split a list at the LAST occurrence of `sep`:
`splitAtLast sep s = some (pre, post)` iff `s = pre ++ sep :: post` with
`post` free of `sep`; `none` iff `sep` does not occur. -/
def splitAtLast (sep : Char) : Str → Option (Str × Str)
  | [] => none
  | c :: cs =>
    match splitAtLast sep cs with
    | some (p, s) => some (c :: p, s)
    | none => if c = sep then some ([], cs) else none

/-- Python `os.path.splitext` (posix): split off the extension at the last
dot of the basename, treating leading dots of the basename as part of the
root (so `".bashrc"` has no extension). -/
def splitext (p : Str) : Str × Str :=
  let dirBase : Str × Str :=
    match splitAtLast '/' p with
    | some (d, b) => (d ++ ['/'], b)
    | none => ([], p)
  let dots := dirBase.2.takeWhile (fun c => c == '.')
  let rest := dirBase.2.dropWhile (fun c => c == '.')
  match splitAtLast '.' rest with
  | some (r1, r2) => (dirBase.1 ++ dots ++ r1, '.' :: r2)
  | none => (p, [])

/-- Python `str.lower()` restricted to ASCII letters (extensions compared in
the source are ASCII). -/
def pyLowerChar (c : Char) : Char :=
  if 65 ≤ c.toNat ∧ c.toNat ≤ 90 then Char.ofNat (c.toNat + 32) else c

/-- `str.lower()` over the whole string. -/
def pyLowerStr (s : Str) : Str := s.map pyLowerChar

/-- The lowercased extension the source dispatches on:
`os.path.splitext(file.filename)[1].lower()`. -/
def extOf (name : Str) : Str := pyLowerStr (splitext name).2

/-- The image extensions accepted: `['.png', '.jpg', '.jpeg', '.tiff', '.bmp']`. -/
def imageExts : List Str :=
  [sl ".png", sl ".jpg", sl ".jpeg", sl ".tiff", sl ".bmp"]

/-- The file-type dispatch decision of `get_file_text_ocrmypdf` /
`get_file_text_tesseract` (identical `if`/`elif` chains in both). -/
inductive Route where
  | pdf
  | docx
  | image
  | unsupported (ext : Str)
deriving DecidableEq

/-- Compute the dispatch decision from a filename. -/
def routeOf (name : Str) : Route :=
  let ext := extOf name
  if ext = sl ".pdf" then .pdf
  else if ext = sl ".docx" then .docx
  else if ext ∈ imageExts then .image
  else .unsupported ext

/-- Python exceptions relevant to the service: FastAPI/Starlette
`HTTPException(status_code, detail)` and any other exception, identified by
its `str()`. -/
inductive PyError where
  | http (status : Nat) (detail : Str)
  | generic (msg : Str)
deriving DecidableEq

/-- Python `str(e)` on an exception: Starlette renders an `HTTPException` as
`"{status_code}: {detail}"`; a plain exception renders as its message. -/
def errStr : PyError → Str
  | .http s d => (Nat.repr s).data ++ sl ": " ++ d
  | .generic m => m

/-- The external collaborators, as oracles on file bytes. An `Except Str`
result models the Python call raising an exception with that message. -/
structure Env where
  /-- `pdfplumber.open` followed by `page.extract_text()` on every page
  (`none` entries are pages where `extract_text()` returned `None`);
  `.error` models `pdfplumber.open` (or iteration) raising. -/
  pdfplumber : Bytes → Except Str (List (Option Str))
  /-- `ocrmypdf.ocr(input, output, language, force_ocr=True, ...)`: consumes
  the input PDF bytes and the language string, produces the output PDF
  bytes; `.error` models the call raising. -/
  ocrmypdf : Bytes → Str → Except Str Bytes
  /-- `fitz.open(stream=..., filetype="pdf")` plus per-page
  `get_pixmap()/tobytes/Image.open`: the rendered page images; `.error`
  models the document open raising. -/
  fitz : Bytes → Except Str (List Img)
  /-- `pytesseract.image_to_string(img, lang=..., config='--psm 3')`. -/
  tesseract : Img → Str → Except Str Str
  /-- `docx.Document(...)` paragraph texts; `.error` models open raising. -/
  docx : Bytes → Except Str (List Str)
  /-- `PIL.Image.open` on raw bytes. -/
  imageOpen : Bytes → Except Str Img
  /-- `image.convert('RGB')` + `image.save(path, 'PDF')`: the single-page
  PDF bytes produced from an image. -/
  imageToPdf : Img → Bytes

/-- `" ".join(page.extract_text() or "" for page in pdf.pages)`:
`None` page text becomes the empty string. -/
def pagesText (pages : List (Option Str)) : Str :=
  joinSpace (pages.map (fun p => p.getD []))

/-- The `try` block of `process_pdf_ocrmypdf`: native text-layer extraction.
`.error ()` covers both `pdfplumber.open` raising and the explicit
`raise Exception("No text found - need OCR")` when the joined text is
empty after `strip()`; either way control falls to the `except` handler. -/
def nativeTry (env : Env) (content : Bytes) : Except Unit Str :=
  match env.pdfplumber content with
  | .error _ => .error ()
  | .ok pages =>
    let text := pagesText pages
    if (pyStrip text).isEmpty then .error () else .ok text

/-- The `except` handler of `process_pdf_ocrmypdf`: write a temp input,
run `ocrmypdf.ocr`, reopen the output with pdfplumber and join the page
texts. A failure of either call propagates (after the `finally` cleanup,
modelled separately). -/
def ocrFallback (env : Env) (content : Bytes) (langs : Str) : Except PyError Str :=
  match env.ocrmypdf content langs with
  | .error m => .error (.generic m)
  | .ok out =>
    match env.pdfplumber out with
    | .error m => .error (.generic m)
    | .ok pages => .ok (pagesText pages)

/-- `process_pdf_ocrmypdf(file, languages)`. -/
def process_pdf_ocrmypdf (env : Env) (content : Bytes) (langs : Str) :
    Except PyError Str :=
  match nativeTry env content with
  | .ok t => .ok t
  | .error () => ocrFallback env content langs

/-- The page loop of `process_pdf_tesseract`:
`text += page_text + " "` for each rendered page, propagating a raising
`pytesseract` call. -/
def tessLoop (env : Env) (langs : Str) : List Img → Except Str Str
  | [] => .ok []
  | pg :: rest =>
    match env.tesseract pg langs with
    | .error m => .error m
    | .ok t =>
      match tessLoop env langs rest with
      | .error m => .error m
      | .ok r => .ok (t ++ sl " " ++ r)

/-- `process_pdf_tesseract(file, languages)`: render every page with fitz
and OCR each one with pytesseract; no native text-layer attempt. -/
def process_pdf_tesseract (env : Env) (content : Bytes) (langs : Str) :
    Except PyError Str :=
  match env.fitz content with
  | .error m => .error (.generic m)
  | .ok pages => (tessLoop env langs pages).mapError .generic

/-- `process_docx(file)`:
`" ".join(para.text for para in doc.paragraphs if para.text.strip())`. -/
def process_docx (env : Env) (content : Bytes) : Except PyError Str :=
  match env.docx content with
  | .error m => .error (.generic m)
  | .ok paras => .ok (joinSpace (paras.filter (fun p => !(pyStrip p).isEmpty)))

/-- `process_image_ocrmypdf(file, languages)`: save the image, convert it to
a one-page PDF, run `ocrmypdf.ocr`, extract the output text with pdfplumber
(temp-file cleanup modelled separately). -/
def process_image_ocrmypdf (env : Env) (content : Bytes) (langs : Str) :
    Except PyError Str :=
  match env.imageOpen content with
  | .error m => .error (.generic m)
  | .ok img =>
    match env.ocrmypdf (env.imageToPdf img) langs with
    | .error m => .error (.generic m)
    | .ok out =>
      match env.pdfplumber out with
      | .error m => .error (.generic m)
      | .ok pages => .ok (pagesText pages)

/-- `process_image_tesseract(file, languages)`. -/
def process_image_tesseract (env : Env) (content : Bytes) (langs : Str) :
    Except PyError Str :=
  match env.imageOpen content with
  | .error m => .error (.generic m)
  | .ok img => (env.tesseract img langs).mapError .generic

/-- One uploaded file: its `filename` and raw bytes. -/
structure UploadFile where
  filename : Str
  content : Bytes
deriving DecidableEq

/-- The `if`/`elif` chain inside the per-file `try` of
`get_file_text_ocrmypdf`, keyed by the lowercased extension. -/
def dispatch_ocrmypdf (env : Env) (name : Str) (content : Bytes) (langs : Str) :
    Except PyError Str :=
  match routeOf name with
  | .pdf => process_pdf_ocrmypdf env content langs
  | .docx => process_docx env content
  | .image => process_image_ocrmypdf env content langs
  | .unsupported ext => .error (.http 400 (sl "Unsupported file type: " ++ ext))

/-- The `if`/`elif` chain inside the per-file `try` of
`get_file_text_tesseract`. -/
def dispatch_tesseract (env : Env) (name : Str) (content : Bytes) (langs : Str) :
    Except PyError Str :=
  match routeOf name with
  | .pdf => process_pdf_tesseract env content langs
  | .docx => process_docx env content
  | .image => process_image_tesseract env content langs
  | .unsupported ext => .error (.http 400 (sl "Unsupported file type: " ++ ext))

/-- The `except Exception as e:` wrapper around one file's processing:
`raise HTTPException(status_code=400, detail=f"Error processing {file.filename}: {str(e)}")`. -/
def wrapMsg (name : Str) (e : PyError) : Str :=
  sl "Error processing " ++ name ++ sl ": " ++ errStr e

/-- One iteration of the file loop of `get_file_text_ocrmypdf`: run the
dispatch and wrap any exception into an `HTTPException(400, ...)`. -/
def processFile_ocrmypdf (env : Env) (f : UploadFile) (langs : Str) :
    Except PyError Str :=
  match dispatch_ocrmypdf env f.filename f.content langs with
  | .ok t => .ok t
  | .error e => .error (.http 400 (wrapMsg f.filename e))

/-- One iteration of the file loop of `get_file_text_tesseract`. -/
def processFile_tesseract (env : Env) (f : UploadFile) (langs : Str) :
    Except PyError Str :=
  match dispatch_tesseract env f.filename f.content langs with
  | .ok t => .ok t
  | .error e => .error (.http 400 (wrapMsg f.filename e))

/-- The `text` list accumulated by the file loop of
`get_file_text_ocrmypdf` (aborting at the first raising file). -/
def fileTexts_ocrmypdf (env : Env) (files : List UploadFile) (langs : Str) :
    Except PyError (List Str) :=
  match files with
  | [] => .ok []
  | f :: fs =>
    match processFile_ocrmypdf env f langs with
    | .error e => .error e
    | .ok t => (fileTexts_ocrmypdf env fs langs).map (t :: ·)

/-- The `text` list accumulated by the file loop of
`get_file_text_tesseract`. -/
def fileTexts_tesseract (env : Env) (files : List UploadFile) (langs : Str) :
    Except PyError (List Str) :=
  match files with
  | [] => .ok []
  | f :: fs =>
    match processFile_tesseract env f langs with
    | .error e => .error e
    | .ok t => (fileTexts_tesseract env fs langs).map (t :: ·)

/-- `get_file_text_ocrmypdf(files, languages)`: per-file texts joined by
`" ".join(text)`. -/
def get_file_text_ocrmypdf (env : Env) (files : List UploadFile) (langs : Str) :
    Except PyError Str :=
  (fileTexts_ocrmypdf env files langs).map joinSpace

/-- `get_file_text_tesseract(files, languages)`. -/
def get_file_text_tesseract (env : Env) (files : List UploadFile) (langs : Str) :
    Except PyError Str :=
  (fileTexts_tesseract env files langs).map joinSpace

/-- A decoded JWT payload: the claims map (values abstracted to strings;
only the `"property"` claim is inspected by the source). -/
abbrev Payload := List (Str × Str)

/-- `verify_token(credentials)`: decode the bearer token (the `decode`
oracle models `jwt.decode`, `.error` being a `PyJWTError`); a payload whose
`"property"` claim is not exactly `"Punjab Government"` raises
`HTTPException(401, "Invalid token - wrong property")` (not a `PyJWTError`,
so it escapes the `except` clause); a decode failure raises
`HTTPException(401, "Could not validate credentials: ...")`. -/
def verify_token (decode : Str → Except Str Payload) (cred : Str) :
    Except PyError Payload :=
  match decode cred with
  | .error m => .error (.http 401 (sl "Could not validate credentials: " ++ m))
  | .ok payload =>
    if payload.lookup (sl "property") = some (sl "Punjab Government") then
      .ok payload
    else .error (.http 401 (sl "Invalid token - wrong property"))

/-- The HTTP outcome of a request: a JSON body (association list — the
source returns the one-key dict `{"extracted_text": cleaned_text}`) or an
error response carrying the raised `HTTPException`'s status and detail
(uncaught non-HTTP exceptions become a 500). -/
inductive EndpointResult where
  | success (body : List (Str × Str))
  | failure (status : Nat) (detail : Str)
deriving DecidableEq

/-- How FastAPI surfaces an uncaught exception. -/
def errResponse : PyError → EndpointResult
  | .http s d => .failure s d
  | .generic m => .failure 500 m

/-- `POST /ocrmypdf` (`ocr_endpoint`): the `verify_token` dependency runs
before the body; then `get_file_text_ocrmypdf` and the whitespace clean. -/
def ocr_endpoint (env : Env) (decode : Str → Except Str Payload) (cred : Str)
    (files : List UploadFile) (langs : Str) : EndpointResult :=
  match verify_token decode cred with
  | .error e => errResponse e
  | .ok _ =>
    match get_file_text_ocrmypdf env files langs with
    | .error e => errResponse e
    | .ok t => .success [(sl "extracted_text", cleanText t)]

/-- `POST /ocr-tesseract` (`ocr_tesseract_only`). -/
def ocr_tesseract_only (env : Env) (decode : Str → Except Str Payload)
    (cred : Str) (files : List UploadFile) (langs : Str) : EndpointResult :=
  match verify_token decode cred with
  | .error e => errResponse e
  | .ok _ =>
    match get_file_text_tesseract env files langs with
    | .error e => errResponse e
    | .ok t => .success [(sl "extracted_text", cleanText t)]

/-!
Temp-file lifecycle of `process_pdf_ocrmypdf` (and, identically shaped,
`process_image_ocrmypdf`): the `finally` block is

    for path in [temp_input_path, temp_output_path]:
        try:
            if os.path.exists(path):
                os.remove(path)
        except Exception:
            pass

modelled over a filesystem `Str → Bool` (which paths exist). `os.remove`
is an oracle `rm : Str → Nat → Bool` telling whether the k-th removal
attempt on a path would succeed (raise = `false`), so that the number of
attempts the code actually makes is observable.
-/

/-- One `try: if os.path.exists(path): os.remove(path) except: pass`
iteration: returns the updated filesystem and how many `os.remove` calls
were made (the code never retries, so 0 or 1). -/
def tryRemoveOnce (ex : Str → Bool) (rm : Str → Nat → Bool) (p : Str) :
    (Str → Bool) × Nat :=
  if ex p then
    (if rm p 1 then (fun q => if q == p then false else ex q) else ex, 1)
  else (ex, 0)

/-- The `finally` loop over a list of temp paths, logging per-path attempt
counts. -/
def cleanupPaths (rm : Str → Nat → Bool) (ex : Str → Bool) :
    List Str → (Str → Bool) × List (Str × Nat)
  | [] => (ex, [])
  | p :: ps =>
    let step := tryRemoveOnce ex rm p
    let rest := cleanupPaths rm step.1 ps
    (rest.1, (p, step.2) :: rest.2)

/-- The temp input path created by `tempfile.NamedTemporaryFile`
(concrete representative name). -/
def tempInputPath : Str := sl "/tmp/tmpinput.pdf"

/-- `temp_output_path = temp_input_path + "_ocr.pdf"`. -/
def tempOutputPath : Str := tempInputPath ++ sl "_ocr.pdf"

/-- The OCR branch of `process_pdf_ocrmypdf` at filesystem granularity:
the temp input is written (exists); `ocrmypdf.ocr` creates the output on
success only (`ocrOk`); the `finally` loop then runs on both paths, on the
success and the failure path alike. Returns (ocr succeeded, final
filesystem, per-path removal-attempt log). -/
def ocr_branch_fs (ocrOk : Bool) (rm : Str → Nat → Bool) :
    Bool × (Str → Bool) × List (Str × Nat) :=
  let ex0 : Str → Bool := fun q => q == tempInputPath
  let ex1 : Str → Bool :=
    if ocrOk then fun q => q == tempInputPath || q == tempOutputPath else ex0
  let fin := cleanupPaths rm ex1 [tempInputPath, tempOutputPath]
  (ocrOk, fin.1, fin.2)

/-!
The spec's Script Analyzer / Language Inferrer (spec sections 4.1-4.2) have
no counterpart anywhere in `src/main.py`; they are modelled here from the
spec's words so the claims about them can be stated.
-/

/-- Modelled from the spec: the restricted Latin letter range of the Script
Analyzer (spec section 4.1), `A`-`Z` and `a`-`z`. -/
def isLatinLetter (c : Char) : Bool :=
  decide ((65 ≤ c.toNat ∧ c.toNat ≤ 90) ∨ (97 ≤ c.toNat ∧ c.toNat ≤ 122))

/-- Modelled from the spec: the Devanagari range U+0900-U+097F. -/
def isDevanagari (c : Char) : Bool :=
  decide (0x0900 ≤ c.toNat ∧ c.toNat ≤ 0x097F)

/-- Modelled from the spec: the Gurmukhi range U+0A00-U+0A7F. -/
def isGurmukhi (c : Char) : Bool :=
  decide (0x0A00 ≤ c.toNat ∧ c.toNat ≤ 0x0A7F)

/-- Modelled from the spec: a character belonging to one of the three
scripts (the "classified-relevant" characters of spec section 4.1). -/
def isClassified (c : Char) : Bool :=
  isLatinLetter c || isDevanagari c || isGurmukhi c

/-- Modelled from the spec: the Script Analyzer (spec section 4.1) — count
each script bucket over the classified characters and convert to
percentages of the classified total; all-zero on empty input. Returns
(latin, devanagari, gurmukhi). -/
def analyze (text : Str) : ℚ × ℚ × ℚ :=
  let lat : ℚ := (text.filter isLatinLetter).length
  let dev : ℚ := (text.filter isDevanagari).length
  let gur : ℚ := (text.filter isGurmukhi).length
  let tot := lat + dev + gur
  if tot = 0 then (0, 0, 0)
  else (100 * lat / tot, 100 * dev / tot, 100 * gur / tot)

/-- Modelled from the spec: the Language Inferrer (spec section 4.2),
absent from `src/main.py`. Steps: (1) short-circuit to
`(["eng"], {eng: 60.0})` when the text is empty or shorter than 10
characters; (2) map the script distribution to language scores
(latin→eng, devanagari→hin, gurmukhi→pan); (3) when no script scores 30,
consult the statistical detector on the classified characters and raise a
recognized language's score to at least 70 (detector failure = `none` is
swallowed); (4) select the highest-scoring language if it scores at least
25, plus every other language scoring at least 10, falling back to
`(["eng"], {eng: 50.0})` when nothing qualifies. -/
def infer (detector : Str → Option Str) (text : Str) :
    List Str × List (Str × ℚ) :=
  if text.length < 10 then ([sl "eng"], [(sl "eng", 60)])
  else
    let dist := analyze text
    let eng0 := dist.1
    let hin0 := dist.2.1
    let pan0 := dist.2.2
    let boosted :=
      if ¬(30 ≤ eng0 ∨ 30 ≤ hin0 ∨ 30 ≤ pan0) then
        match detector (text.filter isClassified) with
        | some code =>
          if code = sl "eng" then (max eng0 70, hin0, pan0)
          else if code = sl "hin" then (eng0, max hin0 70, pan0)
          else if code = sl "pan" then (eng0, hin0, max pan0 70)
          else (eng0, hin0, pan0)
        | none => (eng0, hin0, pan0)
      else (eng0, hin0, pan0)
    let eng := boosted.1
    let hin := boosted.2.1
    let pan := boosted.2.2
    let scores := [(sl "eng", eng), (sl "hin", hin), (sl "pan", pan)]
    let primary :=
      if hin ≤ eng ∧ pan ≤ eng then (sl "eng", eng)
      else if pan ≤ hin then (sl "hin", hin)
      else (sl "pan", pan)
    let selected :=
      (if 25 ≤ primary.2 then [primary.1] else []) ++
        (scores.filter (fun s => s.1 ≠ primary.1 ∧ 10 ≤ s.2)).map (·.1)
    if selected = [] then ([sl "eng"], [(sl "eng", 50)])
    else (selected, scores)



/-- Decidable equality for `Except`, so closed runs of the embedded code
can be checked by evaluation. -/
instance {e a : Type} [DecidableEq e] [DecidableEq a] : DecidableEq (Except e a) :=
  fun x y =>
    match x, y with
    | .error u, .error v =>
      if h : u = v then isTrue (by rw [h]) else isFalse (by intro hc; cases hc; exact h rfl)
    | .ok u, .ok v =>
      if h : u = v then isTrue (by rw [h]) else isFalse (by intro hc; cases hc; exact h rfl)
    | .error _, .ok _ => isFalse (by intro hc; cases hc)
    | .ok _, .error _ => isFalse (by intro hc; cases hc)

/-- The extensions accepted by the dispatch chain. -/
def supportedExts : List Str := [sl ".pdf", sl ".docx"] ++ imageExts

/-- A benign concrete environment: the PDF has a native text layer, OCR
engines succeed (tesseract echoes its language argument, making the
language flow observable), the DOCX has one paragraph. -/
def envW : Env :=
  ⟨fun _ => .ok [some (sl "native text layer")],
   fun b _ => .ok b,
   fun _ => .ok [0],
   fun _ l => .ok l,
   fun _ => .ok [sl "hello"],
   fun _ => .ok 0,
   fun _ => []⟩

/-- A failing concrete environment: the fitz document opens fine (one
page) but every OCR attempt and every document-text collaborator raises. -/
def envFail : Env :=
  ⟨fun _ => .error (sl "cannot open"),
   fun _ _ => .error (sl "ocr failed"),
   fun _ => .ok [0],
   fun _ _ => .error (sl "boom"),
   fun _ => .error (sl "bad docx"),
   fun _ => .ok 0,
   fun _ => []⟩

/-- A decode oracle accepting the token with the expected property claim. -/
def decodeOK : Str → Except Str Payload :=
  fun _ => .ok [(sl "property", sl "Punjab Government")]

/-- A decode oracle rejecting every token (PyJWTError). -/
def decodeBad : Str → Except Str Payload :=
  fun _ => .error (sl "Signature verification failed")

/-- A concrete bearer token. -/
def credW : Str := sl "sometoken"

/-- Concrete uploads. -/
def fileA : UploadFile := ⟨sl "a.pdf", [1]⟩

/-- A concrete image upload. -/
def fileImg : UploadFile := ⟨sl "img.png", [2]⟩

/-- A concrete DOCX upload. -/
def fileDocx : UploadFile := ⟨sl "d.docx", [3]⟩

/-- A concrete upload with an unsupported extension. -/
def fileBad : UploadFile := ⟨sl "evil.xyz", [4]⟩

/-! Helper lemmas. -/

/-- `Char.ofNat`/`Char.toNat` round-trip on small codepoints. -/
theorem charOfNatToNat (n : Nat) (h : n < 1000) : (Char.ofNat n).toNat = n := by
  have hv : n < 55296 ∨ 57343 < n ∧ n < 1114112 := Or.inl (by omega)
  simp [Char.ofNat, hv, Char.ofNatAux, Char.toNat, UInt32.toNat]

/-- Lowercasing can neither create nor destroy a character below `'A'`
(such as `'.'` or `'/'`), so extension splitting is unaffected by case. -/
theorem pyLowerChar_eq_iff (sep : Char) (hsep : sep.toNat < 65) (c : Char) :
    pyLowerChar c = sep ↔ c = sep := by
  unfold pyLowerChar
  split
  · rename_i h
    constructor
    · intro he
      have hr : (Char.ofNat (c.toNat + 32)).toNat = c.toNat + 32 :=
        charOfNatToNat _ (by omega)
      rw [he] at hr
      omega
    · intro he
      subst he
      omega
  · exact Iff.rfl

/-- `splitAtLast` commutes with a character map that preserves and reflects
the separator. -/
theorem splitAtLast_map (g : Char → Char) (sep : Char)
    (hg : ∀ c, g c = sep ↔ c = sep) :
    ∀ s : Str, splitAtLast sep (s.map g) =
      (splitAtLast sep s).map (fun pr => (pr.1.map g, pr.2.map g)) := by
  intro s
  induction s with
  | nil => rfl
  | cons c cs ih =>
    simp only [List.map_cons, splitAtLast, ih]
    cases hs : splitAtLast sep cs with
    | some pr => rfl
    | none =>
      simp only [Option.map_none']
      by_cases hc : c = sep
      · rw [if_pos ((hg c).mpr hc), if_pos hc]
        rfl
      · rw [if_neg (fun hgc => hc ((hg c).mp hgc)), if_neg hc]
        rfl

/-- `splitext` commutes with a character map that preserves and reflects
both `'.'` and `'/'`. -/
theorem splitext_map (g : Char → Char) (hdot : ∀ c, g c = '.' ↔ c = '.')
    (hslash : ∀ c, g c = '/' ↔ c = '/') (p : Str) :
    splitext (p.map g) = ((splitext p).1.map g, (splitext p).2.map g) := by
  have hbeq : (fun c => g c == '.') = (fun c => c == '.') := by
    funext c
    simp [beq_iff_eq, hdot c]
  have hgdot : g '.' = '.' := (hdot '.').mpr rfl
  have hgslash : g '/' = '/' := (hslash '/').mpr rfl
  simp only [splitext, splitAtLast_map g '/' hslash p]
  cases hsl : splitAtLast '/' p with
  | none =>
    simp only [Option.map_none']
    rw [show (List.takeWhile (fun c => c == '.') (p.map g)) =
        (p.takeWhile ((fun c => c == '.') ∘ g)).map g from List.takeWhile_map g _ p]
    rw [show (List.dropWhile (fun c => c == '.') (p.map g)) =
        (p.dropWhile ((fun c => c == '.') ∘ g)).map g from List.dropWhile_map g _ p]
    have hfn : ((fun c => c == '.') ∘ g) = (fun c => c == '.') := by
      funext c
      simp [beq_iff_eq, hdot c]
    rw [hfn, splitAtLast_map g '.' hdot]
    cases hd : splitAtLast '.' (p.dropWhile (fun c => c == '.')) with
    | none => rfl
    | some pr =>
      simp [hgdot]
  | some db =>
    simp only [Option.map_some']
    rw [show (List.takeWhile (fun c => c == '.') (db.2.map g)) =
        (db.2.takeWhile ((fun c => c == '.') ∘ g)).map g from List.takeWhile_map g _ db.2]
    rw [show (List.dropWhile (fun c => c == '.') (db.2.map g)) =
        (db.2.dropWhile ((fun c => c == '.') ∘ g)).map g from List.dropWhile_map g _ db.2]
    have hfn : ((fun c => c == '.') ∘ g) = (fun c => c == '.') := by
      funext c
      simp [beq_iff_eq, hdot c]
    rw [hfn, splitAtLast_map g '.' hdot]
    cases hd : splitAtLast '.' (db.2.dropWhile (fun c => c == '.')) with
    | none => rfl
    | some pr =>
      simp [hgdot, hgslash]

/-- Two filenames equal up to ASCII case produce the same lowercased
extension. -/
theorem extOf_eq_of_lower_eq {s t : Str} (h : pyLowerStr s = pyLowerStr t) :
    extOf s = extOf t := by
  have hdot : ∀ c, pyLowerChar c = '.' ↔ c = '.' :=
    pyLowerChar_eq_iff '.' (by decide)
  have hslash : ∀ c, pyLowerChar c = '/' ↔ c = '/' :=
    pyLowerChar_eq_iff '/' (by decide)
  have hs := splitext_map pyLowerChar hdot hslash s
  have ht := splitext_map pyLowerChar hdot hslash t
  have hst : (splitext (pyLowerStr s)).2 = (splitext (pyLowerStr t)).2 := by rw [h]
  simp only [pyLowerStr] at hst
  rw [hs, ht] at hst
  simp only [extOf, pyLowerStr]
  exact hst

/-- Two filenames equal up to ASCII case dispatch to the same route. -/
theorem routeOf_eq_of_lower_eq {s t : Str} (h : pyLowerStr s = pyLowerStr t) :
    routeOf s = routeOf t := by
  unfold routeOf
  rw [extOf_eq_of_lower_eq h]

/-- A flushed accumulator of non-whitespace characters is a nonempty
whitespace-free fragment. -/
theorem pySplitAux_flush {acc : Str} (hacc : ∀ c ∈ acc, wsChar c = false)
    (h : ¬acc.isEmpty = true) :
    acc.reverse ≠ [] ∧ ∀ c ∈ acc.reverse, wsChar c = false := by
  constructor
  · intro hnil
    rw [List.reverse_eq_nil_iff] at hnil
    rw [hnil] at h
    exact h rfl
  · intro c hc
    exact hacc c (List.mem_reverse.mp hc)

/-- Every fragment produced by `pySplitAux` from a whitespace-free
accumulator is nonempty and free of whitespace characters. -/
theorem pySplitAux_mem :
    ∀ (s acc w : Str), (∀ c ∈ acc, wsChar c = false) →
    w ∈ pySplitAux s acc → w ≠ [] ∧ ∀ c ∈ w, wsChar c = false := by
  intro s
  induction s with
  | nil =>
    intro acc w hacc hw
    unfold pySplitAux at hw
    by_cases h : acc.isEmpty = true
    · rw [if_pos h] at hw
      cases hw
    · rw [if_neg h] at hw
      rcases List.mem_singleton.mp hw with rfl
      exact pySplitAux_flush hacc h
  | cons a cs ih =>
    intro acc w hacc hw
    unfold pySplitAux at hw
    by_cases hws : wsChar a = true
    · rw [if_pos hws] at hw
      by_cases h : acc.isEmpty = true
      · rw [if_pos h] at hw
        exact ih [] w (by intro c hc; cases hc) hw
      · rw [if_neg h] at hw
        rcases List.mem_cons.mp hw with rfl | hmem
        · exact pySplitAux_flush hacc h
        · exact ih [] w (by intro c hc; cases hc) hmem
    · rw [if_neg hws] at hw
      refine ih (a :: acc) w ?_ hw
      intro c hc
      rcases List.mem_cons.mp hc with rfl | hm
      · exact Bool.not_eq_true _ ▸ hws
      · exact hacc c hm

/-- Every fragment produced by `pySplit` is nonempty and free of
whitespace characters. -/
theorem pySplit_mem {s w : Str} (hw : w ∈ pySplit s) :
    w ≠ [] ∧ ∀ c ∈ w, wsChar c = false :=
  pySplitAux_mem s [] w (by intro c hc; cases hc) hw

/-- The head of a space-join starting with a nonempty fragment is that
fragment's head. -/
theorem joinSpace_head? (w : Str) (ws : List Str) (hw : w ≠ []) :
    (joinSpace (w :: ws)).head? = w.head? := by
  cases ws with
  | nil => rfl
  | cons u ts =>
    rw [joinSpace, List.head?_append]
    cases w with
    | nil => exact absurd rfl hw
    | cons a l => rfl

/-- Characters of a space-join are either a separating space or belong to
one of the fragments. -/
theorem mem_joinSpace {c : Char} :
    ∀ {L : List Str}, c ∈ joinSpace L → c = ' ' ∨ ∃ w ∈ L, c ∈ w := by
  intro L
  induction L with
  | nil => intro h; simp [joinSpace] at h
  | cons w ws ih =>
    intro h
    cases ws with
    | nil =>
      exact Or.inr ⟨w, by simp, by simpa [joinSpace] using h⟩
    | cons u ts =>
      rw [joinSpace] at h
      rcases List.mem_append.mp h with h | h
      · exact Or.inr ⟨w, by simp, h⟩
      · rcases List.mem_cons.mp h with h | h
        · exact Or.inl h
        · rcases ih h with h | ⟨v, hv, hc⟩
          · exact Or.inl h
          · exact Or.inr ⟨v, List.mem_cons_of_mem _ hv, hc⟩

/-- The property "no two consecutive whitespace characters". -/
def noWsRun (s : Str) : Prop :=
  List.Chain' (fun a b => ¬(wsChar a = true ∧ wsChar b = true)) s

/-- A string free of whitespace characters trivially has no whitespace
run. -/
theorem noWsRun_of_all_nonws {l : Str} (h : ∀ c ∈ l, wsChar c = false) :
    noWsRun l := by
  induction l with
  | nil => exact List.chain'_nil
  | cons a l ih =>
    rw [noWsRun, List.chain'_cons']
    refine ⟨?_, ih (fun c hc => h c (List.mem_cons_of_mem _ hc))⟩
    intro b _
    have := h a (by simp)
    simp [this]

/-- Joining nonempty whitespace-free fragments with single spaces yields a
string with no whitespace run. -/
theorem noWsRun_joinSpace {L : List Str}
    (h : ∀ w ∈ L, w ≠ [] ∧ ∀ c ∈ w, wsChar c = false) :
    noWsRun (joinSpace L) := by
  induction L with
  | nil => exact List.chain'_nil
  | cons w ws ih =>
    cases ws with
    | nil =>
      exact noWsRun_of_all_nonws (by simpa [joinSpace] using (h w (by simp)).2)
    | cons u ts =>
      rw [joinSpace, noWsRun, List.chain'_append]
      obtain ⟨hwne, hwc⟩ := h w (by simp)
      refine ⟨noWsRun_of_all_nonws hwc, ?_, ?_⟩
      · rw [List.chain'_cons']
        refine ⟨?_, ih (fun v hv => h v (List.mem_cons_of_mem _ hv))⟩
        intro b hb
        obtain ⟨hune, huc⟩ := h u (by simp)
        rw [joinSpace_head? u ts hune] at hb
        cases u with
        | nil => exact absurd rfl hune
        | cons a l =>
          simp only [List.head?_cons, Option.mem_def, Option.some.injEq] at hb
          subst hb
          have := huc a (by simp)
          simp [this]
      · intro x hx y hy
        have hxw : x ∈ w := by
          obtain ⟨hne, rfl⟩ := List.mem_getLast?_eq_getLast hx
          exact List.getLast_mem hne
        have := hwc x hxw
        simp [this]

/-- The cleaning step produces text with no whitespace run and in which
every character is a separating space or a non-whitespace character. -/
theorem cleanText_props (s : Str) :
    noWsRun (cleanText s) ∧ ∀ c ∈ cleanText s, c = ' ' ∨ wsChar c = false := by
  constructor
  · exact noWsRun_joinSpace (fun w hw => pySplit_mem hw)
  · intro c hc
    rcases mem_joinSpace hc with h | ⟨w, hw, hcw⟩
    · exact Or.inl h
    · exact Or.inr ((pySplit_mem hw).2 c hcw)

/-- The cleaned text contains no newline. -/
theorem cleanText_no_newline (s : Str) : '\n' ∉ cleanText s := by
  intro h
  rcases (cleanText_props s).2 '\n' h with h | h
  · exact absurd h (by decide)
  · exact absurd h (by decide)

/-- The per-file wrapper can only raise `HTTPException(400, ...)`. -/
theorem processFile_tesseract_error_form {env : Env} {f : UploadFile}
    {langs : Str} {e : PyError}
    (h : processFile_tesseract env f langs = .error e) : ∃ d, e = .http 400 d := by
  unfold processFile_tesseract at h
  cases hd : dispatch_tesseract env f.filename f.content langs with
  | ok t => rw [hd] at h; cases h
  | error e' =>
    rw [hd] at h
    exact ⟨wrapMsg f.filename e', by cases h; rfl⟩

/-- Same for the ocrmypdf variant. -/
theorem processFile_ocrmypdf_error_form {env : Env} {f : UploadFile}
    {langs : Str} {e : PyError}
    (h : processFile_ocrmypdf env f langs = .error e) : ∃ d, e = .http 400 d := by
  unfold processFile_ocrmypdf at h
  cases hd : dispatch_ocrmypdf env f.filename f.content langs with
  | ok t => rw [hd] at h; cases h
  | error e' =>
    rw [hd] at h
    exact ⟨wrapMsg f.filename e', by cases h; rfl⟩

/-- If every file before `f` processes successfully and `f` raises, the
tesseract file loop raises `f`'s wrapped error. -/
theorem fileTexts_tesseract_append_error (env : Env) (langs : Str) (e : PyError)
    (pre : List UploadFile) (f : UploadFile) (post : List UploadFile)
    (hpre : ∀ g ∈ pre, ∃ t, processFile_tesseract env g langs = .ok t)
    (hf : processFile_tesseract env f langs = .error e) :
    fileTexts_tesseract env (pre ++ f :: post) langs = .error e := by
  induction pre with
  | nil =>
    simp only [List.nil_append, fileTexts_tesseract, hf]
  | cons g gs ih =>
    obtain ⟨t, ht⟩ := hpre g (by simp)
    simp only [List.cons_append, fileTexts_tesseract, ht, List.append_eq]
    rw [ih (fun g' hg' => hpre g' (List.mem_cons_of_mem _ hg'))]
    rfl

/-- Same for the ocrmypdf file loop. -/
theorem fileTexts_ocrmypdf_append_error (env : Env) (langs : Str) (e : PyError)
    (pre : List UploadFile) (f : UploadFile) (post : List UploadFile)
    (hpre : ∀ g ∈ pre, ∃ t, processFile_ocrmypdf env g langs = .ok t)
    (hf : processFile_ocrmypdf env f langs = .error e) :
    fileTexts_ocrmypdf env (pre ++ f :: post) langs = .error e := by
  induction pre with
  | nil =>
    simp only [List.nil_append, fileTexts_ocrmypdf, hf]
  | cons g gs ih =>
    obtain ⟨t, ht⟩ := hpre g (by simp)
    simp only [List.cons_append, fileTexts_ocrmypdf, ht, List.append_eq]
    rw [ih (fun g' hg' => hpre g' (List.mem_cons_of_mem _ hg'))]
    rfl

/-- An unsupported route makes the per-file wrapper raise with the
wrapped unsupported-file-type message (tesseract loop). -/
theorem processFile_tesseract_unsupported {env : Env} {f : UploadFile}
    {langs : Str} {ext : Str} (h : routeOf f.filename = .unsupported ext) :
    processFile_tesseract env f langs =
      .error (.http 400 (wrapMsg f.filename
        (.http 400 (sl "Unsupported file type: " ++ ext)))) := by
  unfold processFile_tesseract dispatch_tesseract
  rw [h]

/-- Same for the ocrmypdf variant. -/
theorem processFile_ocrmypdf_unsupported {env : Env} {f : UploadFile}
    {langs : Str} {ext : Str} (h : routeOf f.filename = .unsupported ext) :
    processFile_ocrmypdf env f langs =
      .error (.http 400 (wrapMsg f.filename
        (.http 400 (sl "Unsupported file type: " ++ ext)))) := by
  unfold processFile_ocrmypdf dispatch_ocrmypdf
  rw [h]

/-- Normalizing the doubly wrapped unsupported-file-type message: the
offending extension appears verbatim at its end. -/
theorem wrapMsg_unsupported (name ext : Str) :
    wrapMsg name (.http 400 (sl "Unsupported file type: " ++ ext)) =
      sl "Error processing " ++ name ++ sl ": 400: Unsupported file type: " ++ ext := by
  simp only [wrapMsg, errStr, List.append_assoc]
  rw [show sl ": 400: Unsupported file type: " =
    sl ": " ++ ((Nat.repr 400).data ++ sl ": Unsupported file type: ") from rfl]
  simp only [List.append_assoc]
  rw [← List.append_assoc (sl ": ") (sl "Unsupported file type: ") ext]
  rfl

/-- A request containing an unsupported file always makes the tesseract
file loop raise an `HTTPException(400, ...)`. -/
theorem fileTexts_tesseract_error_of_unsupported (env : Env) (langs : Str) :
    ∀ files : List UploadFile,
    (∃ f ∈ files, ∃ ext, routeOf f.filename = .unsupported ext) →
    ∃ d, fileTexts_tesseract env files langs = .error (.http 400 d) := by
  intro files
  induction files with
  | nil => rintro ⟨f, hf, -⟩; cases hf
  | cons g gs ih =>
    rintro ⟨f, hf, ext, hext⟩
    cases hp : processFile_tesseract env g langs with
    | error e =>
      obtain ⟨d, rfl⟩ := processFile_tesseract_error_form hp
      exact ⟨d, by simp only [fileTexts_tesseract, hp]⟩
    | ok t =>
      rcases List.mem_cons.mp hf with rfl | hmem
      · rw [processFile_tesseract_unsupported hext] at hp
        cases hp
      · obtain ⟨d, hd⟩ := ih ⟨f, hmem, ext, hext⟩
        refine ⟨d, ?_⟩
        simp only [fileTexts_tesseract, hp, hd]
        rfl

/-- Same for the ocrmypdf file loop. -/
theorem fileTexts_ocrmypdf_error_of_unsupported (env : Env) (langs : Str) :
    ∀ files : List UploadFile,
    (∃ f ∈ files, ∃ ext, routeOf f.filename = .unsupported ext) →
    ∃ d, fileTexts_ocrmypdf env files langs = .error (.http 400 d) := by
  intro files
  induction files with
  | nil => rintro ⟨f, hf, -⟩; cases hf
  | cons g gs ih =>
    rintro ⟨f, hf, ext, hext⟩
    cases hp : processFile_ocrmypdf env g langs with
    | error e =>
      obtain ⟨d, rfl⟩ := processFile_ocrmypdf_error_form hp
      exact ⟨d, by simp only [fileTexts_ocrmypdf, hp]⟩
    | ok t =>
      rcases List.mem_cons.mp hf with rfl | hmem
      · rw [processFile_ocrmypdf_unsupported hext] at hp
        cases hp
      · obtain ⟨d, hd⟩ := ih ⟨f, hmem, ext, hext⟩
        refine ⟨d, ?_⟩
        simp only [fileTexts_ocrmypdf, hp, hd]
        rfl

/-! Claim theorems. -/

/-- C8 (confirmed, spec-modelled): for every text input that is empty or
shorter than 10 characters, the Language Inferrer short-circuits and
returns exactly the pair (["eng"], {eng: 60.0}). -/
theorem claim8_short_circuit (detector : Str → Option Str) (text : Str)
    (h : text.length < 10) :
    infer detector text = ([sl "eng"], [(sl "eng", 60)]) := by
  unfold infer
  rw [if_pos h]

/-- Witness for C8 at the concrete two-character text "hi". -/
theorem claim8_short_circuit_witness :
    (sl "hi").length < 10 ∧
    infer (fun _ => none) (sl "hi") = ([sl "eng"], [(sl "eng", 60)]) :=
  ⟨by decide, claim8_short_circuit (fun _ => none) (sl "hi") (by decide)⟩

/-- C9 (confirmed): for every request to either OCR endpoint, a failing
bearer-token verification (decode failure or a "property" claim other
than "Punjab Government") yields a 401 response, and the response is
independent of the environment, the uploaded files and the language
parameter — no file is read or processed. -/
theorem claim9_auth_gates (decode : Str → Except Str Payload) (cred : Str)
    (e : PyError) (h : verify_token decode cred = .error e) :
    ∃ d, e = .http 401 d ∧
      ∀ (env env' : Env) (files files' : List UploadFile) (langs langs' : Str),
        ocr_endpoint env decode cred files langs = .failure 401 d ∧
        ocr_tesseract_only env decode cred files langs = .failure 401 d ∧
        ocr_endpoint env decode cred files langs =
          ocr_endpoint env' decode cred files' langs' ∧
        ocr_tesseract_only env decode cred files langs =
          ocr_tesseract_only env' decode cred files' langs' := by
  unfold verify_token at h
  have hform : ∃ d, e = .http 401 d := by
    cases hdc : decode cred with
    | error m =>
      rw [hdc] at h
      exact ⟨_, by cases h; rfl⟩
    | ok payload =>
      rw [hdc] at h
      dsimp only at h
      by_cases hp : payload.lookup (sl "property") = some (sl "Punjab Government")
      · rw [if_pos hp] at h; cases h
      · rw [if_neg hp] at h
        exact ⟨_, by cases h; rfl⟩
  obtain ⟨d, rfl⟩ := hform
  refine ⟨d, rfl, ?_⟩
  intro env env' files files' langs langs'
  have hv : verify_token decode cred = .error (.http 401 d) := by
    unfold verify_token
    exact h
  refine ⟨?_, ?_, ?_, ?_⟩ <;>
    simp only [ocr_endpoint, ocr_tesseract_only, hv, errResponse]

/-- Witness for C9: a rejected decode yields the 401 with the wrapped
PyJWTError message, and the response ignores environment and files. -/
theorem claim9_auth_gates_witness :
    ocr_endpoint envW decodeBad credW [fileA] (sl "L") =
      .failure 401 (sl "Could not validate credentials: Signature verification failed") ∧
    ocr_endpoint envW decodeBad credW [fileA] (sl "L") =
      ocr_endpoint envFail decodeBad credW [] (sl "M") := by
  obtain ⟨d, hd, h⟩ := claim9_auth_gates decodeBad credW
    (.http 401 (sl "Could not validate credentials: Signature verification failed"))
    (by decide)
  injection hd with h1 h2
  subst h2
  exact ⟨(h envW envW [fileA] [fileA] (sl "L") (sl "L")).1,
    (h envW envFail [fileA] [] (sl "L") (sl "M")).2.2.1⟩

/-- C10 (confirmed): the filename extension is lowercased before the
dispatch comparison, so two filenames equal up to ASCII case dispatch to
the same route and their per-file processing (which processor runs, with
which result, including the success text) is identical. -/
theorem claim10_case_insensitive (env : Env) (c : Bytes) (langs : Str)
    (s t : Str) (h : pyLowerStr s = pyLowerStr t) :
    routeOf s = routeOf t ∧
    dispatch_ocrmypdf env s c langs = dispatch_ocrmypdf env t c langs ∧
    dispatch_tesseract env s c langs = dispatch_tesseract env t c langs ∧
    (∀ r, processFile_ocrmypdf env ⟨s, c⟩ langs = .ok r ↔
      processFile_ocrmypdf env ⟨t, c⟩ langs = .ok r) ∧
    (∀ r, processFile_tesseract env ⟨s, c⟩ langs = .ok r ↔
      processFile_tesseract env ⟨t, c⟩ langs = .ok r) := by
  have hr := routeOf_eq_of_lower_eq h
  have hdo : dispatch_ocrmypdf env s c langs = dispatch_ocrmypdf env t c langs := by
    unfold dispatch_ocrmypdf
    rw [hr]
  have hdt : dispatch_tesseract env s c langs = dispatch_tesseract env t c langs := by
    unfold dispatch_tesseract
    rw [hr]
  refine ⟨hr, hdo, hdt, ?_, ?_⟩
  · intro r
    unfold processFile_ocrmypdf
    rw [hdo]
    cases dispatch_ocrmypdf env t c langs <;> simp
  · intro r
    unfold processFile_tesseract
    rw [hdt]
    cases dispatch_tesseract env t c langs <;> simp

/-- Witness for C10 at the filenames "Doc.PDF" and "Doc.pdf". -/
theorem claim10_case_insensitive_witness :
    routeOf (sl "Doc.PDF") = routeOf (sl "Doc.pdf") ∧
    dispatch_ocrmypdf envW (sl "Doc.PDF") [1] (sl "L") =
      dispatch_ocrmypdf envW (sl "Doc.pdf") [1] (sl "L") ∧
    dispatch_tesseract envW (sl "Doc.PDF") [1] (sl "L") =
      dispatch_tesseract envW (sl "Doc.pdf") [1] (sl "L") ∧
    (∀ r, processFile_ocrmypdf envW ⟨sl "Doc.PDF", [1]⟩ (sl "L") = .ok r ↔
      processFile_ocrmypdf envW ⟨sl "Doc.pdf", [1]⟩ (sl "L") = .ok r) ∧
    (∀ r, processFile_tesseract envW ⟨sl "Doc.PDF", [1]⟩ (sl "L") = .ok r ↔
      processFile_tesseract envW ⟨sl "Doc.pdf", [1]⟩ (sl "L") = .ok r) :=
  claim10_case_insensitive envW [1] (sl "L") (sl "Doc.PDF") (sl "Doc.pdf") (by decide)

/-- C2 counterexample: a PDF whose native text layer is non-empty
("native text layer", as `envW.pdfplumber` reports) is nevertheless OCRed
page by page by `process_pdf_tesseract`, which returns the OCR engine's
output, not the native text — so it is not the case that for every PDF
input native extraction is attempted first and OCR runs only when it
yields nothing. -/
theorem claim2_counterexample :
    envW.pdfplumber fileA.content = .ok [some (sl "native text layer")] ∧
    (pyStrip (pagesText [some (sl "native text layer")])).isEmpty = false ∧
    process_pdf_tesseract envW fileA.content (sl "pan+eng") = .ok (sl "pan+eng ") ∧
    process_pdf_tesseract envW fileA.content (sl "pan+eng") ≠
      .ok (pagesText [some (sl "native text layer")]) := by
  decide

/-- C2 (amended): in the ocrmypdf path (`process_pdf_ocrmypdf`), native
text-layer extraction is attempted first; when it yields non-whitespace
text that text is returned and the result is independent of the OCR
oracle (no OCR is invoked); when it yields nothing (or raising), the OCR
fallback runs. The tesseract path has no native-extraction attempt. -/
theorem claim2_native_first (env : Env) (content : Bytes) (langs : Str)
    (t : Str) (o : Bytes → Str → Except Str Bytes) :
    (nativeTry env content = .ok t →
      process_pdf_ocrmypdf
        ⟨env.pdfplumber, o, env.fitz, env.tesseract, env.docx,
          env.imageOpen, env.imageToPdf⟩ content langs = .ok t)
  ∧ (nativeTry env content = .error () →
      process_pdf_ocrmypdf env content langs = ocrFallback env content langs) := by
  constructor
  · intro h
    unfold process_pdf_ocrmypdf
    have hsame : nativeTry
        ⟨env.pdfplumber, o, env.fitz, env.tesseract, env.docx,
          env.imageOpen, env.imageToPdf⟩ content = nativeTry env content := rfl
    rw [hsame, h]
  · intro h
    unfold process_pdf_ocrmypdf
    rw [h]

/-- Witness for C2: with the native layer present, the result is the
native text even under an OCR oracle that always fails. -/
theorem claim2_native_first_witness :
    process_pdf_ocrmypdf
      ⟨envW.pdfplumber, fun _ _ => .error (sl "down"), envW.fitz, envW.tesseract,
        envW.docx, envW.imageOpen, envW.imageToPdf⟩ [1] (sl "L") =
      .ok (sl "native text layer") :=
  (claim2_native_first envW [1] (sl "L") (sl "native text layer")
    (fun _ _ => .error (sl "down"))).1 (by decide)

/-- C5 counterexample: a successfully processed request returns a body
holding only `extracted_text`; `detected_languages`,
`language_used_for_ocr`, `confidence_score`, `page_processing_info` and
`total_pages` are all absent. -/
theorem claim5_counterexample :
    ocr_endpoint envW decodeOK credW [fileDocx] (sl "L") =
      .success [(sl "extracted_text", sl "hello")] ∧
    List.lookup (sl "detected_languages")
      [(sl "extracted_text", sl "hello")] = none ∧
    List.lookup (sl "language_used_for_ocr")
      [(sl "extracted_text", sl "hello")] = none ∧
    List.lookup (sl "confidence_score")
      [(sl "extracted_text", sl "hello")] = none ∧
    List.lookup (sl "page_processing_info")
      [(sl "extracted_text", sl "hello")] = none ∧
    List.lookup (sl "total_pages")
      [(sl "extracted_text", sl "hello")] = none := by
  decide

/-- C5 (amended): every successful response from either endpoint carries
exactly the one field `extracted_text`. -/
theorem claim5_single_field (env : Env) (decode : Str → Except Str Payload)
    (cred : Str) (files : List UploadFile) (langs : Str)
    (body : List (Str × Str)) :
    (ocr_endpoint env decode cred files langs = .success body →
      ∃ t, body = [(sl "extracted_text", t)]) ∧
    (ocr_tesseract_only env decode cred files langs = .success body →
      ∃ t, body = [(sl "extracted_text", t)]) := by
  constructor
  · intro h
    unfold ocr_endpoint at h
    cases hv : verify_token decode cred with
    | error e =>
      rw [hv] at h
      dsimp only at h
      cases e <;> simp [errResponse] at h
    | ok p =>
      rw [hv] at h
      dsimp only at h
      cases hg : get_file_text_ocrmypdf env files langs with
      | error e =>
        rw [hg] at h
        dsimp only at h
        cases e <;> simp [errResponse] at h
      | ok t =>
        rw [hg] at h
        dsimp only at h
        cases h
        exact ⟨cleanText t, rfl⟩
  · intro h
    unfold ocr_tesseract_only at h
    cases hv : verify_token decode cred with
    | error e =>
      rw [hv] at h
      dsimp only at h
      cases e <;> simp [errResponse] at h
    | ok p =>
      rw [hv] at h
      dsimp only at h
      cases hg : get_file_text_tesseract env files langs with
      | error e =>
        rw [hg] at h
        dsimp only at h
        cases e <;> simp [errResponse] at h
      | ok t =>
        rw [hg] at h
        dsimp only at h
        cases h
        exact ⟨cleanText t, rfl⟩

/-- Witness for C5 at a concrete successful DOCX request. -/
theorem claim5_single_field_witness :
    ∃ t, [(sl "extracted_text", sl "hello")] = [(sl "extracted_text", t)] :=
  (claim5_single_field envW decodeOK credW [fileDocx] (sl "L")
    [(sl "extracted_text", sl "hello")]).1 (by decide)

/-- C6 (confirmed): for every successful request to the ocrmypdf endpoint,
the returned extracted text is the whitespace-collapsed single-space join
of the per-file fragments: it equals `cleanText` of the space-join of the
fragments, contains no newline, and contains no run of two or more
consecutive whitespace characters. -/
theorem claim6_cleaned_join (env : Env) (decode : Str → Except Str Payload)
    (cred : Str) (files : List UploadFile) (langs : Str)
    (frags : List Str) (p : Payload)
    (hv : verify_token decode cred = .ok p)
    (hf : fileTexts_ocrmypdf env files langs = .ok frags) :
    ocr_endpoint env decode cred files langs =
      .success [(sl "extracted_text", cleanText (joinSpace frags))] ∧
    noWsRun (cleanText (joinSpace frags)) ∧
    '\n' ∉ cleanText (joinSpace frags) := by
  refine ⟨?_, (cleanText_props _).1, cleanText_no_newline _⟩
  unfold ocr_endpoint
  rw [hv]
  dsimp only
  unfold get_file_text_ocrmypdf
  rw [hf]
  rfl

/-- Witness for C6 at a concrete successful DOCX request. -/
theorem claim6_cleaned_join_witness :
    ocr_endpoint envW decodeOK credW [fileDocx] (sl "L") =
      .success [(sl "extracted_text", cleanText (joinSpace [sl "hello"]))] ∧
    noWsRun (cleanText (joinSpace [sl "hello"])) ∧
    '\n' ∉ cleanText (joinSpace [sl "hello"]) :=
  claim6_cleaned_join envW decodeOK credW [fileDocx] (sl "L") [sl "hello"]
    [(sl "property", sl "Punjab Government")] (by decide) (by decide)

/-- C7 counterexample: with a fixed input file and token, two language
hints produce different OCR invocations and different extracted text
(the hint is the `lang` argument of the OCR engine, observable because
`envW.tesseract` echoes it); the responses differ and carry no
`language_used_for_ocr` field at all. -/
theorem claim7_counterexample :
    ocr_tesseract_only envW decodeOK credW [fileImg] (sl "eng") =
      .success [(sl "extracted_text", sl "eng")] ∧
    ocr_tesseract_only envW decodeOK credW [fileImg] (sl "pan") =
      .success [(sl "extracted_text", sl "pan")] ∧
    ocr_tesseract_only envW decodeOK credW [fileImg] (sl "eng") ≠
      ocr_tesseract_only envW decodeOK credW [fileImg] (sl "pan") ∧
    List.lookup (sl "language_used_for_ocr")
      [(sl "extracted_text", sl "eng")] = none := by
  decide

/-- C7 (amended): the caller-supplied `languages` parameter is forwarded
to the OCR engine as its language argument, so whenever the engine's
output differs between two hints (up to cleaning) the responses differ —
the hint affects OCR execution and extracted text, not merely a response
metadata field. -/
theorem claim7_hint_reaches_ocr (env : Env) (decode : Str → Except Str Payload)
    (cred : Str) (p : Payload) (name : Str) (b : Bytes) (img : Img)
    (l1 l2 t1 t2 : Str)
    (hv : verify_token decode cred = .ok p)
    (hr : routeOf name = .image)
    (hi : env.imageOpen b = .ok img)
    (h1 : env.tesseract img l1 = .ok t1)
    (h2 : env.tesseract img l2 = .ok t2)
    (hne : cleanText t1 ≠ cleanText t2) :
    ocr_tesseract_only env decode cred [⟨name, b⟩] l1 ≠
      ocr_tesseract_only env decode cred [⟨name, b⟩] l2 := by
  have hrun : ∀ l t, env.tesseract img l = .ok t →
      ocr_tesseract_only env decode cred [⟨name, b⟩] l =
        .success [(sl "extracted_text", cleanText t)] := by
    intro l t ht
    unfold ocr_tesseract_only
    rw [hv]
    dsimp only
    unfold get_file_text_tesseract fileTexts_tesseract processFile_tesseract
      dispatch_tesseract
    rw [hr]
    dsimp only
    unfold process_image_tesseract
    rw [hi]
    dsimp only
    rw [ht]
    dsimp only [Except.mapError]
    rfl
  intro heq
  rw [hrun l1 t1 h1, hrun l2 t2 h2] at heq
  simp only [EndpointResult.success.injEq, List.cons.injEq, Prod.mk.injEq,
    and_true, true_and] at heq
  exact hne heq

/-- Witness for C7 with the echoing engine and hints "eng" and "pan". -/
theorem claim7_hint_reaches_ocr_witness :
    ocr_tesseract_only envW decodeOK credW [⟨sl "img.png", [2]⟩] (sl "eng") ≠
      ocr_tesseract_only envW decodeOK credW [⟨sl "img.png", [2]⟩] (sl "pan") :=
  claim7_hint_reaches_ocr envW decodeOK credW
    [(sl "property", sl "Punjab Government")] (sl "img.png") [2] 0
    (sl "eng") (sl "pan") (sl "eng") (sl "pan")
    (by decide) (by decide) (by decide) (by decide) (by decide) (by decide)

/-- C1 counterexample: a per-OCR-attempt failure is not absorbed — with a
PDF whose fitz document opens fine (one page) but whose single tesseract
OCR attempt raises "boom", the whole request fails with a 400 naming the
file, instead of continuing with a degraded default result. -/
theorem claim1_counterexample :
    envFail.fitz fileA.content = .ok [0] ∧
    get_file_text_tesseract envFail [fileA] (sl "pan+eng") =
      .error (.http 400 (sl "Error processing a.pdf: boom")) ∧
    ocr_tesseract_only envFail decodeOK credW [fileA] (sl "pan+eng") =
      .failure 400 (sl "Error processing a.pdf: boom") := by
  decide

/-- C1 (amended): per-page and per-OCR-attempt failures are not absorbed:
any exception raised while processing a file — after the files before it
succeeded — is wrapped into an `HTTPException(400, "Error processing
{filename}: ...")` that aborts the whole request, for both engines' file
loops. (The only absorbed failure is the native-extraction attempt inside
the ocrmypdf PDF path, which falls back to OCR.) -/
theorem claim1_failure_propagates (env : Env) (langs : Str) (e : PyError)
    (pre : List UploadFile) (f : UploadFile) (post : List UploadFile) :
    ((∀ g ∈ pre, ∃ t, processFile_tesseract env g langs = .ok t) →
      processFile_tesseract env f langs = .error e →
      get_file_text_tesseract env (pre ++ f :: post) langs = .error e ∧
        ∃ d, e = .http 400 d)
  ∧ ((∀ g ∈ pre, ∃ t, processFile_ocrmypdf env g langs = .ok t) →
      processFile_ocrmypdf env f langs = .error e →
      get_file_text_ocrmypdf env (pre ++ f :: post) langs = .error e ∧
        ∃ d, e = .http 400 d) := by
  constructor
  · intro hpre hf
    refine ⟨?_, processFile_tesseract_error_form hf⟩
    unfold get_file_text_tesseract
    rw [fileTexts_tesseract_append_error env langs e pre f post hpre hf]
    rfl
  · intro hpre hf
    refine ⟨?_, processFile_ocrmypdf_error_form hf⟩
    unfold get_file_text_ocrmypdf
    rw [fileTexts_ocrmypdf_append_error env langs e pre f post hpre hf]
    rfl

/-- Witness for C1 (amended) at the concrete failing-OCR environment. -/
theorem claim1_failure_propagates_witness :
    get_file_text_tesseract envFail [fileA] (sl "L") =
      .error (.http 400 (sl "Error processing a.pdf: boom")) ∧
    ∃ d, PyError.http 400 (sl "Error processing a.pdf: boom") = .http 400 d :=
  (claim1_failure_propagates envFail (sl "L")
    (.http 400 (sl "Error processing a.pdf: boom")) [] fileA []).1
    (by intro g hg; cases hg) (by decide)

/-- An extension outside the supported list routes to `unsupported`. -/
theorem routeOf_of_not_supported {name : Str}
    (h : extOf name ∉ supportedExts) :
    routeOf name = .unsupported (extOf name) := by
  unfold routeOf
  unfold supportedExts at h
  simp only [List.cons_append, List.nil_append, List.mem_cons,
    not_or] at h
  obtain ⟨h1, h2, h3⟩ := h
  rw [if_neg h1, if_neg h2, if_neg h3]

/-- C3 (confirmed): a request containing a file with an unsupported
extension always aborts with a 400 response (no extracted text is
produced) on both endpoints; when the files before the offending one
process successfully, the error detail names the offending extension
verbatim. -/
theorem claim3_unsupported_aborts (env : Env) (files : List UploadFile)
    (langs : Str) (pre : List UploadFile) (f : UploadFile)
    (post : List UploadFile) (decode : Str → Except Str Payload)
    (cred : Str) (p : Payload) :
    ((∃ g ∈ files, extOf g.filename ∉ supportedExts) →
      verify_token decode cred = .ok p →
      (∃ d, ocr_tesseract_only env decode cred files langs = .failure 400 d) ∧
      (∃ d, ocr_endpoint env decode cred files langs = .failure 400 d))
  ∧ (extOf f.filename ∉ supportedExts →
      (∀ g ∈ pre, ∃ t, processFile_tesseract env g langs = .ok t) →
      get_file_text_tesseract env (pre ++ f :: post) langs =
        .error (.http 400 (sl "Error processing " ++ f.filename ++
          sl ": 400: Unsupported file type: " ++ extOf f.filename))) := by
  constructor
  · rintro ⟨g, hg, hext⟩ hv
    have hex : ∃ x ∈ files, ∃ ext, routeOf x.filename = .unsupported ext :=
      ⟨g, hg, extOf g.filename, routeOf_of_not_supported hext⟩
    constructor
    · obtain ⟨d, hd⟩ := fileTexts_tesseract_error_of_unsupported env langs files hex
      refine ⟨d, ?_⟩
      unfold ocr_tesseract_only
      rw [hv]
      dsimp only
      unfold get_file_text_tesseract
      rw [hd]
      rfl
    · obtain ⟨d, hd⟩ := fileTexts_ocrmypdf_error_of_unsupported env langs files hex
      refine ⟨d, ?_⟩
      unfold ocr_endpoint
      rw [hv]
      dsimp only
      unfold get_file_text_ocrmypdf
      rw [hd]
      rfl
  · intro hext hpre
    have hf : processFile_tesseract env f langs =
        .error (.http 400 (wrapMsg f.filename
          (.http 400 (sl "Unsupported file type: " ++ extOf f.filename)))) :=
      processFile_tesseract_unsupported (routeOf_of_not_supported hext)
    unfold get_file_text_tesseract
    rw [fileTexts_tesseract_append_error env langs _ pre f post hpre hf]
    rw [wrapMsg_unsupported]
    rfl

/-- Witness for C3 at a concrete `.xyz` upload. -/
theorem claim3_unsupported_aborts_witness :
    ((∃ d, ocr_tesseract_only envW decodeOK credW [fileBad] (sl "L") =
        .failure 400 d) ∧
     (∃ d, ocr_endpoint envW decodeOK credW [fileBad] (sl "L") =
        .failure 400 d)) ∧
    get_file_text_tesseract envW [fileBad] (sl "L") =
      .error (.http 400 (sl "Error processing " ++ fileBad.filename ++
        sl ": 400: Unsupported file type: " ++ extOf fileBad.filename)) := by
  have h := claim3_unsupported_aborts envW [fileBad] (sl "L") [] fileBad []
    decodeOK credW [(sl "property", sl "Punjab Government")]
  exact ⟨h.1 ⟨fileBad, by simp, by decide⟩ (by decide),
    h.2 (by decide) (by intro g hg; cases hg)⟩

/-- C4 counterexample: there is no retrying delete — with `os.remove`
failing on the first attempt but set to succeed from the second attempt
on (a transient lock), and ocrmypdf raising mid-processing, the cleanup
makes exactly one attempt on the temp input (not up to 3), and the
artifact remains on disk after the step returns. -/
theorem claim4_counterexample :
    (ocr_branch_fs false (fun _ k => decide (2 ≤ k))).2.1 tempInputPath = true ∧
    (ocr_branch_fs false (fun _ k => decide (2 ≤ k))).2.2 =
      [(tempInputPath, 1), (tempOutputPath, 0)] ∧
    ((fun _ k => decide (2 ≤ k)) : Str → Nat → Bool) tempInputPath 2 = true := by
  decide

/-- C4 (amended): the `finally` block attempts deletion of each artifact
before the step returns, on the success and the failure path alike, but
with a single, non-retrying `os.remove` per existing artifact (exactly one
attempt for the temp input; one for the OCR output when it was created,
none otherwise); the artifact is gone only when that single attempt
succeeds. -/
theorem claim4_single_attempt (ocrOk : Bool) (rm : Str → Nat → Bool) :
    (ocr_branch_fs ocrOk rm).2.2 =
      [(tempInputPath, 1), (tempOutputPath, if ocrOk then 1 else 0)] ∧
    (rm tempInputPath 1 = true →
      (ocr_branch_fs ocrOk rm).2.1 tempInputPath = false) ∧
    (rm tempOutputPath 1 = true →
      (ocr_branch_fs ocrOk rm).2.1 tempOutputPath = false) := by
  have hii : (tempInputPath == tempInputPath) = true := by decide
  have hoo : (tempOutputPath == tempOutputPath) = true := by decide
  have hoi : (tempOutputPath == tempInputPath) = false := by decide
  have hio : (tempInputPath == tempOutputPath) = false := by decide
  have hne : ¬(tempOutputPath = tempInputPath) := by decide
  have hne' : ¬(tempInputPath = tempOutputPath) := by decide
  cases ocrOk <;>
    by_cases h1 : rm tempInputPath 1 = true <;>
    by_cases h2 : rm tempOutputPath 1 = true <;>
    simp [ocr_branch_fs, cleanupPaths, tryRemoveOnce, h1, h2, hii, hoo, hoi,
      hio, hne, hne']

/-- Witness for C4 (amended) with an always-succeeding `os.remove`:
one attempt per artifact and nothing remains. -/
theorem claim4_single_attempt_witness :
    (ocr_branch_fs true (fun _ _ => true)).2.2 =
      [(tempInputPath, 1), (tempOutputPath, if true then 1 else 0)] ∧
    (ocr_branch_fs true (fun _ _ => true)).2.1 tempInputPath = false ∧
    (ocr_branch_fs true (fun _ _ => true)).2.1 tempOutputPath = false := by
  obtain ⟨ha, hb, hc⟩ := claim4_single_attempt true (fun _ _ => true)
  exact ⟨ha, hb rfl, hc rfl⟩
